import Mathlib

/-!
Shallow embedding of the project-board store and drag protocol of
src/src/app.ts. Pure value semantics for the Store (projects, listeners,
broadcast trace); a separate reference/heap model captures the aliasing
behaviour of Array.prototype.slice for the snapshot-isolation analysis.
-/

namespace TSApp

/-- Embeds enum ProjectStatus (app.ts lines 15-17). -/
inductive ProjectStatus where
  | Active
  | Finished
deriving DecidableEq

/-- Embeds class Project (app.ts lines 18-26): id, title, description,
manday (effort), status. -/
structure Project where
  id : String
  title : String
  description : String
  manday : Nat
  status : ProjectStatus
deriving DecidableEq

/-- Listener callbacks are opaque functions in the source; the embedding
identifies each registered callback by a token and records, per broadcast,
which callback was invoked and with which snapshot. -/
abbrev ListenerId := Nat

/-- One listener invocation during a broadcast: the callback invoked and the
sequence it received. -/
abbrev BroadcastEvent := ListenerId × List Project

/-- Embeds the state owned by class ProjectState (app.ts lines 41-87):
the projects array and the inherited listeners array (app.ts line 33). -/
structure ProjectState where
  projects : List Project
  listeners : List ListenerId
deriving DecidableEq

/-- The state of the freshly constructed singleton: both arrays empty. -/
def initialState : ProjectState := { projects := [], listeners := [] }

/-- Embeds addListener (app.ts lines 35-37): push the callback onto the
listeners array; nothing is invoked, so the event trace is empty. -/
def addListener (listenerFn : ListenerId) (s : ProjectState) :
    ProjectState × List BroadcastEvent :=
  ({ s with listeners := s.listeners ++ [listenerFn] }, [])

/-- Embeds updateListeners (app.ts lines 82-86): for each registered
listener, in registration order, invoke it with this.projects.slice().
At the value level the snapshot is the current sequence; the aliasing of
slice is modelled separately below. -/
def updateListeners (s : ProjectState) : List BroadcastEvent :=
  s.listeners.map (fun listenerFn => (listenerFn, s.projects))

/-- Embeds addProject (app.ts lines 62-72). The call Math.random().toString()
is an external draw from the random source; it enters the embedding as the
argument freshId. The new record gets status Active, is pushed onto the
array, and updateListeners runs. -/
def addProject (freshId title description : String) (manday : Nat)
    (s : ProjectState) : ProjectState × List BroadcastEvent :=
  let newProject : Project :=
    { id := freshId, title := title, description := description,
      manday := manday, status := ProjectStatus.Active }
  let s' := { s with projects := s.projects ++ [newProject] }
  (s', updateListeners s')

/-- Embeds the in-place write project.status = newStatus (app.ts line 77)
on the object returned by this.projects.find (app.ts line 75): the first
record whose id matches gets the new status; every other record, and the
order, are untouched. -/
def setStatusFirst : List Project → String → ProjectStatus → List Project
  | [], _, _ => []
  | p :: ps, projectId, newStatus =>
    if p.id == projectId then { p with status := newStatus } :: ps
    else p :: setStatusFirst ps projectId newStatus

/-- Embeds moveProject (app.ts lines 74-80): find the first record with the
given id; if present and its status differs from newStatus, write the new
status and broadcast; otherwise do nothing and broadcast nothing. -/
def moveProject (projectId : String) (newStatus : ProjectStatus)
    (s : ProjectState) : ProjectState × List BroadcastEvent :=
  match s.projects.find? (fun prj => prj.id == projectId) with
  | some project =>
    if project.status ≠ newStatus then
      let s' := { s with projects := setStatusFirst s.projects projectId newStatus }
      (s', updateListeners s')
    else (s, [])
  | none => (s, [])

/-- Runs a sequence of addProject calls; each call supplies the random draw
used as the id, then the title, the description and the manday value. -/
def runAddProjects : List (String × String × String × Nat) → ProjectState →
    ProjectState
  | [], s => s
  | c :: cs, s => runAddProjects cs (addProject c.1 c.2.1 c.2.2.1 c.2.2.2 s).1

/-- A concrete record used to instantiate theorems with hypotheses. -/
def demoProject : Project :=
  { id := "0.7", title := "A", description := "descA", manday := 3,
    status := ProjectStatus.Active }

/-- A second concrete record. -/
def demoProjectB : Project :=
  { id := "0.9", title := "B", description := "descB", manday := 5,
    status := ProjectStatus.Active }

/-- A concrete store state with one record and two registered listeners. -/
def demoState : ProjectState :=
  { projects := [demoProject], listeners := [0, 1] }

/-- A concrete store state with two records and two registered listeners. -/
def demo2State : ProjectState :=
  { projects := [demoProject, demoProjectB], listeners := [0, 1] }

/-- Embeds the part of the DataTransfer object the drag-over handler reads:
the declared payload kinds, in order (event.dataTransfer.types). -/
structure DataTransfer where
  types : List String
deriving DecidableEq

/-- Embeds the part of a DragEvent the drag-over handler reads: dataTransfer
may be absent (null). -/
structure DragEvent where
  dataTransfer : Option DataTransfer
deriving DecidableEq

/-- Embeds classList.add: appends the class token unless already present. -/
def classListAdd (classes : List String) (c : String) : List String :=
  if c ∈ classes then classes else classes ++ [c]

/-- Observable outcome of one dragOverHandler call: whether
event.preventDefault() ran (the drop was accepted) and the class list of the
ul element afterwards. -/
structure DragOverResult where
  defaultPrevented : Bool
  classes : List String
deriving DecidableEq

/-- Embeds dragOverHandler (app.ts lines 221-228): when dataTransfer is
present and types[0] equals text/plain, call preventDefault and add the
droppable class; otherwise do nothing. -/
def dragOverHandler (event : DragEvent) (classes : List String) :
    DragOverResult :=
  match event.dataTransfer with
  | some dt =>
    if dt.types.head? = some "text/plain" then
      { defaultPrevented := true, classes := classListAdd classes "droppable" }
    else
      { defaultPrevented := false, classes := classes }
  | none => { defaultPrevented := false, classes := classes }

/-- Reference model for the snapshot-isolation analysis: JS arrays hold
references to Project objects. An address is an index into a heap of
records; the Store array and every delivered snapshot are lists of
addresses. -/
abbrev Addr := Nat

/-- Dereferences a reference array against the heap: the sequence of records
the array denotes (none for a dangling address). -/
def derefSeq (heap : List Project) (refs : List Addr) : List (Option Project) :=
  refs.map (fun a => heap[a]?)

/-- Embeds this.projects.slice() (app.ts line 84) at the reference level: a
new array containing the same references (a shallow copy) — the records
themselves are not copied. -/
def sliceSnapshot (storeRefs : List Addr) : List Addr := storeRefs

/-- Embeds a listener mutating a record reached through its snapshot, such
as assigning to snapshot[k].status: a write to the heap cell at that
address. -/
def heapWriteStatus (heap : List Project) (a : Addr)
    (newStatus : ProjectStatus) : List Project :=
  match heap[a]? with
  | some p => heap.set a { p with status := newStatus }
  | none => heap

/-- Claim C3 as stated: a listener mutating the contents of the snapshot it
received cannot change the sequence the Store observes through its own
references. -/
def snapshotIsolationClaim : Prop :=
  ∀ (heap : List Project) (storeRefs : List Addr) (a : Addr)
    (newStatus : ProjectStatus),
    a ∈ sliceSnapshot storeRefs →
    derefSeq (heapWriteStatus heap a newStatus) storeRefs
      = derefSeq heap storeRefs

/-- C2: moveProject is idempotent on status. If the lookup finds a record
and its status already equals the requested status, the call returns the
state unchanged and performs zero broadcasts. -/
theorem C2_moveProject_idempotent :
    ∀ (s : ProjectState) (projectId : String) (newStatus : ProjectStatus)
      (p : Project),
      s.projects.find? (fun prj => prj.id == projectId) = some p →
      p.status = newStatus →
      moveProject projectId newStatus s = (s, []) := by
  intro s projectId newStatus p hfind hstat
  simp [moveProject, hfind, hstat]

/-- C2 witness: moving the demo record to the status it already has is a
pure no-op with no broadcast. -/
theorem C2_moveProject_idempotent_witness :
    moveProject "0.7" ProjectStatus.Active demoState = (demoState, []) :=
  C2_moveProject_idempotent demoState "0.7" ProjectStatus.Active demoProject
    (by decide) (by decide)

/-- C5: moveProject on an id not present in the sequence is a pure no-op:
the state is unchanged and zero broadcasts occur. -/
theorem C5_moveProject_unknown_id_noop :
    ∀ (s : ProjectState) (projectId : String) (newStatus : ProjectStatus),
      (∀ p ∈ s.projects, p.id ≠ projectId) →
      moveProject projectId newStatus s = (s, []) := by
  intro s projectId newStatus h
  have hfind : s.projects.find? (fun prj => prj.id == projectId) = none := by
    rw [List.find?_eq_none]
    intro p hp
    simp [h p hp]
  simp [moveProject, hfind]

/-- C5 witness: moving a nonexistent id to Finished leaves the demo state
unchanged and broadcasts nothing. -/
theorem C5_moveProject_unknown_id_noop_witness :
    moveProject "nonexistent" ProjectStatus.Finished demoState =
      (demoState, []) :=
  C5_moveProject_unknown_id_noop demoState "nonexistent"
    ProjectStatus.Finished (by decide)

/-- C6: addProject builds a record with the supplied fields and status
Active, appends it at the end of the sequence leaving every existing record
in place, keeps the listeners unchanged, and broadcasts the new sequence to
every registered listener. -/
theorem C6_addProject_appends_active :
    ∀ (s : ProjectState) (freshId title description : String) (manday : Nat),
      (addProject freshId title description manday s).1.projects
        = s.projects ++
          [{ id := freshId, title := title, description := description,
             manday := manday, status := ProjectStatus.Active }]
      ∧ (addProject freshId title description manday s).1.listeners
        = s.listeners
      ∧ (addProject freshId title description manday s).2
        = s.listeners.map (fun l =>
            (l, s.projects ++
              [{ id := freshId, title := title, description := description,
                 manday := manday, status := ProjectStatus.Active }])) := by
  intro s freshId title description manday
  refine ⟨rfl, rfl, ?_⟩
  simp [addProject, updateListeners]

/-- C4: after every successful mutation the broadcast trace is exactly one
invocation per registered listener, in registration order, each carrying the
full sequence of the mutated state: for addProject always, and for
moveProject whenever the lookup finds a record whose status differs from the
requested one. -/
theorem C4_broadcast_completeness :
    ∀ (s : ProjectState) (freshId title description : String) (manday : Nat)
      (projectId : String) (newStatus : ProjectStatus),
      ((addProject freshId title description manday s).2
        = s.listeners.map (fun l =>
            (l, (addProject freshId title description manday s).1.projects)))
      ∧ (∀ p : Project,
          s.projects.find? (fun prj => prj.id == projectId) = some p →
          p.status ≠ newStatus →
          (moveProject projectId newStatus s).2
            = s.listeners.map (fun l =>
                (l, (moveProject projectId newStatus s).1.projects))) := by
  intro s freshId title description manday projectId newStatus
  constructor
  · simp [addProject, updateListeners]
  · intro p hfind hstat
    simp [moveProject, hfind, hstat, updateListeners]

/-- C10: addListener triggers no broadcast and leaves the sequence
unchanged: the callback is appended to the registry, the event trace of the
registration is empty, and on the next successful mutation the callback
receives the full current sequence, which carries every record added before
its registration. -/
theorem C10_addListener_silent :
    ∀ (s : ProjectState) (f : ListenerId)
      (freshId title description : String) (manday : Nat),
      (addListener f s).1.projects = s.projects
      ∧ (addListener f s).2 = []
      ∧ (addListener f s).1.listeners = s.listeners ++ [f]
      ∧ (f, s.projects ++
            [{ id := freshId, title := title, description := description,
               manday := manday, status := ProjectStatus.Active }])
          ∈ (addProject freshId title description manday (addListener f s).1).2 := by
  intro s f freshId title description manday
  refine ⟨rfl, rfl, rfl, ?_⟩
  simp [addListener, addProject, updateListeners]

/-- Broadcasting invokes precisely the registered listeners: the invoked
callbacks of one broadcast are the listeners array itself. -/
theorem updateListeners_map_fst (s : ProjectState) :
    (updateListeners s).map Prod.fst = s.listeners := by
  simp [updateListeners, Function.comp_def]

/-- C8: addListener performs no de-duplication: registering the same
callback twice into a state where it was absent, then performing one
broadcast, invokes that callback exactly twice. -/
theorem C8_no_dedup_double_invocation :
    ∀ (s : ProjectState) (f : ListenerId),
      f ∉ s.listeners →
      ((updateListeners (addListener f (addListener f s).1).1).map
          Prod.fst).count f = 2 := by
  intro s f hf
  rw [updateListeners_map_fst]
  simp [addListener, List.count_append,
    List.count_eq_zero_of_not_mem hf]

/-- C8 witness: registering callback 5 twice on the demo state and
broadcasting once yields exactly two invocations of callback 5. -/
theorem C8_no_dedup_double_invocation_witness :
    ((updateListeners (addListener 5 (addListener 5 demoState).1).1).map
        Prod.fst).count 5 = 2 :=
  C8_no_dedup_double_invocation demoState 5 (by decide)

/-- Writing a status through setStatusFirst preserves every field map that
ignores the status field. -/
theorem setStatusFirst_map_eq {α : Type} (f : Project → α)
    (hf : ∀ (p : Project) (st : ProjectStatus), f { p with status := st } = f p) :
    ∀ (l : List Project) (projectId : String) (newStatus : ProjectStatus),
      (setStatusFirst l projectId newStatus).map f = l.map f := by
  intro l projectId newStatus
  induction l with
  | nil => rfl
  | cons q qs ih =>
    by_cases hq : (q.id == projectId) = true
    · simp [setStatusFirst, hq, hf]
    · simp [setStatusFirst, hq, ih]

/-- When find? locates a record, setStatusFirst rewrites exactly that
position to the record with the new status and leaves every other position
untouched. -/
theorem setStatusFirst_spec :
    ∀ (l : List Project) (projectId : String) (newStatus : ProjectStatus)
      (p : Project),
      l.find? (fun prj => prj.id == projectId) = some p →
      ∃ i : Nat, i < l.length ∧ l[i]? = some p
        ∧ (setStatusFirst l projectId newStatus)[i]? =
            some { p with status := newStatus }
        ∧ ∀ j : Nat, j ≠ i →
            (setStatusFirst l projectId newStatus)[j]? = l[j]? := by
  intro l projectId newStatus
  induction l with
  | nil => intro p h; simp at h
  | cons q qs ih =>
    intro p h
    by_cases hq : (q.id == projectId) = true
    · have hfq : (q :: qs).find? (fun prj => prj.id == projectId) = some q := by
        simp [List.find?_cons, hq]
      rw [hfq] at h
      have hpq : q = p := by injection h
      subst hpq
      refine ⟨0, by simp, by simp, ?_, ?_⟩
      · simp [setStatusFirst, hq]
      · intro j hj
        match j with
        | 0 => exact absurd rfl hj
        | j' + 1 => simp [setStatusFirst, hq]
    · have hfq : (q :: qs).find? (fun prj => prj.id == projectId)
          = qs.find? (fun prj => prj.id == projectId) := by
        simp [List.find?_cons, hq]
      rw [hfq] at h
      obtain ⟨i, hlen, hget, hset, hframe⟩ := ih p h
      refine ⟨i + 1, by simpa using Nat.succ_lt_succ hlen, by simpa using hget,
        ?_, ?_⟩
      · simpa [setStatusFirst, hq] using hset
      · intro j hj
        match j with
        | 0 => simp [setStatusFirst, hq]
        | j' + 1 =>
          have hji : j' ≠ i := by omega
          simpa [setStatusFirst, hq] using hframe j' hji

/-- C9: a status-changing moveProject modifies only the status field of the
first record matching the id: the id, title, description and manday
sequences are unchanged (so order is preserved), every other position is
unchanged, and the matched position holds the old record with only its
status replaced. -/
theorem C9_moveProject_frame :
    ∀ (s : ProjectState) (projectId : String) (newStatus : ProjectStatus)
      (p : Project),
      s.projects.find? (fun prj => prj.id == projectId) = some p →
      p.status ≠ newStatus →
      ((moveProject projectId newStatus s).1.projects.map Project.id
          = s.projects.map Project.id)
      ∧ ((moveProject projectId newStatus s).1.projects.map Project.title
          = s.projects.map Project.title)
      ∧ ((moveProject projectId newStatus s).1.projects.map Project.description
          = s.projects.map Project.description)
      ∧ ((moveProject projectId newStatus s).1.projects.map Project.manday
          = s.projects.map Project.manday)
      ∧ (∃ i : Nat, i < s.projects.length
          ∧ s.projects[i]? = some p
          ∧ (moveProject projectId newStatus s).1.projects[i]?
              = some { p with status := newStatus }
          ∧ ∀ j : Nat, j ≠ i →
              (moveProject projectId newStatus s).1.projects[j]?
                = s.projects[j]?) := by
  intro s projectId newStatus p hfind hstat
  have hmv : (moveProject projectId newStatus s).1.projects
      = setStatusFirst s.projects projectId newStatus := by
    simp [moveProject, hfind, hstat]
  rw [hmv]
  exact ⟨setStatusFirst_map_eq Project.id (fun _ _ => rfl) _ _ _,
    setStatusFirst_map_eq Project.title (fun _ _ => rfl) _ _ _,
    setStatusFirst_map_eq Project.description (fun _ _ => rfl) _ _ _,
    setStatusFirst_map_eq Project.manday (fun _ _ => rfl) _ _ _,
    setStatusFirst_spec s.projects projectId newStatus p hfind⟩

/-- C9 witness: moving the second demo record to Finished preserves the id
sequence of the store. -/
theorem C9_moveProject_frame_witness :
    (moveProject "0.9" ProjectStatus.Finished demo2State).1.projects.map
        Project.id = demo2State.projects.map Project.id :=
  (C9_moveProject_frame demo2State "0.9" ProjectStatus.Finished demoProjectB
    (by decide) (by decide)).1

/-- The ids after a run of addProject calls are the prior ids followed by
the random draws the calls consumed, in order. -/
theorem runAddProjects_ids :
    ∀ (calls : List (String × String × String × Nat)) (s : ProjectState),
      (runAddProjects calls s).projects.map Project.id
        = s.projects.map Project.id ++ calls.map (fun c => c.1) := by
  intro calls
  induction calls with
  | nil => intro s; simp [runAddProjects]
  | cons c cs ih =>
    intro s
    have hstep : runAddProjects (c :: cs) s
        = runAddProjects cs (addProject c.1 c.2.1 c.2.2.1 c.2.2.2 s).1 := rfl
    rw [hstep, ih]
    simp [addProject]

/-- C1 counterexample: the code derives ids from Math.random with no
uniqueness check, so a random source that draws 0.5 twice yields two records
with equal ids. -/
theorem C1_cex_random_collision :
    ¬ ((runAddProjects [("0.5", "A", "descA", 1), ("0.5", "B", "descB", 2)]
        initialState).projects.map Project.id).Nodup := by
  decide

/-- C1 (amended): each resulting id is exactly one of the successive random
draws, so the ids are pairwise distinct whenever the draws consumed are
pairwise distinct; the Store itself enforces no uniqueness. -/
theorem C1_ids_distinct_of_draws_distinct :
    ∀ (calls : List (String × String × String × Nat)),
      (calls.map (fun c => c.1)).Nodup →
      ((runAddProjects calls initialState).projects.map Project.id).Nodup := by
  intro calls h
  rw [runAddProjects_ids calls initialState]
  simpa [initialState] using h

/-- C1 witness: two addProject calls whose draws differ produce records with
pairwise distinct ids. -/
theorem C1_ids_distinct_witness :
    ((runAddProjects [("0.1", "A", "descA", 1), ("0.2", "B", "descB", 2)]
        initialState).projects.map Project.id).Nodup :=
  C1_ids_distinct_of_draws_distinct _ (by decide)

/-- The droppable marker is present after classListAdd. -/
theorem mem_classListAdd (classes : List String) (c : String) :
    c ∈ classListAdd classes c := by
  by_cases h : c ∈ classes
  · simp [classListAdd, h]
  · simp [classListAdd, h]

/-- C7: the drag-over handler accepts (calls preventDefault and applies the
droppable marker) exactly when the payload declares text/plain as its kind;
for any other payload, including an absent dataTransfer, it does not accept
and the class list is unchanged. -/
theorem C7_dragOver_accepts_iff_plaintext :
    ∀ (event : DragEvent) (classes : List String),
      ((dragOverHandler event classes).defaultPrevented = true
        ↔ ∃ dt : DataTransfer, event.dataTransfer = some dt
            ∧ dt.types.head? = some "text/plain")
      ∧ ((dragOverHandler event classes).defaultPrevented = true →
          (dragOverHandler event classes).classes
              = classListAdd classes "droppable"
            ∧ "droppable" ∈ (dragOverHandler event classes).classes)
      ∧ ((dragOverHandler event classes).defaultPrevented = false →
          (dragOverHandler event classes).classes = classes) := by
  intro event classes
  obtain ⟨dtOpt⟩ := event
  cases dtOpt with
  | none => simp [dragOverHandler]
  | some dt =>
    by_cases h : dt.types.head? = some "text/plain"
    · simp [dragOverHandler, h, mem_classListAdd]
    · simp [dragOverHandler, h]

/-- C3 counterexample: slice is a shallow copy, so a listener that writes a
status through an address contained in its snapshot changes the sequence the
Store observes: the isolation claim as stated is false. -/
theorem C3_cex_shallow_copy : ¬ snapshotIsolationClaim := by
  intro h
  have hx := h [demoProject] [0] 0 ProjectStatus.Finished (by decide)
  exact absurd hx (by decide)

/-- C3 (amended): the snapshot array itself is an independent copy holding
the same record references, so writes through addresses the Store does not
reference leave the Store unchanged, while a write through a snapshot
address that the Store shares, changing a status, necessarily changes the
sequence the Store observes. -/
theorem C3_snapshot_shallow_isolation :
    ∀ (heap : List Project) (storeRefs : List Addr) (a : Addr)
      (newStatus : ProjectStatus),
      (sliceSnapshot storeRefs = storeRefs)
      ∧ (a ∉ storeRefs →
          derefSeq (heapWriteStatus heap a newStatus) storeRefs
            = derefSeq heap storeRefs)
      ∧ (∀ p : Project, heap[a]? = some p → p.status ≠ newStatus →
          a ∈ sliceSnapshot storeRefs →
          derefSeq (heapWriteStatus heap a newStatus) storeRefs
            ≠ derefSeq heap storeRefs) := by
  intro heap storeRefs a newStatus
  refine ⟨rfl, ?_, ?_⟩
  · intro ha
    unfold derefSeq
    apply List.map_congr_left
    intro b hb
    have hba : b ≠ a := fun hba => ha (hba ▸ hb)
    unfold heapWriteStatus
    cases hcell : heap[a]? with
    | none => rfl
    | some p => simp [List.getElem?_set_ne (Ne.symm hba)]
  · intro p hcell hstat ha heq
    have ha' : a ∈ storeRefs := ha
    obtain ⟨i, hi, hri⟩ := List.getElem_of_mem ha'
    obtain ⟨hlen, -⟩ := List.getElem?_eq_some_iff.mp hcell
    have hsome : storeRefs[i]? = some a := by
      rw [List.getElem?_eq_getElem hi]
      exact congrArg some hri
    have hL : (derefSeq (heapWriteStatus heap a newStatus) storeRefs)[i]?
        = some (some { p with status := newStatus }) := by
      unfold derefSeq heapWriteStatus
      rw [hcell, List.getElem?_map, hsome]
      simp [List.getElem?_set_self hlen]
    have hR : (derefSeq heap storeRefs)[i]? = some (some p) := by
      unfold derefSeq
      rw [List.getElem?_map, hsome]
      simp [hcell]
    rw [heq, hR] at hL
    have hpp : p = { p with status := newStatus } := by
      injection hL with hL1
      injection hL1
    exact hstat (congrArg Project.status hpp)

end TSApp
